import Mathlib

/-
  Verification of the simple-memory MCP server (Go, single file with the
  title/tags/status schema).  Strings are modelled as `List Char`; the
  SQLite table `simple_memories` is modelled as a `List Memory` (one entry
  per row, in arbitrary order — `ORDER BY id ASC` is modelled explicitly by
  sorting).  SQL `NULL` for the nullable columns title/tags/status is
  modelled by `Option`; `content` is `NOT NULL` and hence non-optional.
-/

namespace SimpleMemory

/-- Whitespace characters recognised by Go's `strings.TrimSpace`
(`unicode.IsSpace`): ASCII space characters plus the Unicode
`White_Space` code points. -/
def goIsSpace (c : Char) : Bool :=
  c = ' ' || c = '\t' || c = '\n' || c = '\x0b' || c = '\x0c' || c = '\r' ||
    c = '\u0085' || c = '\u00a0' || c = '\u1680' ||
    ('\u2000' ≤ c && c ≤ '\u200a') ||
    c = '\u2028' || c = '\u2029' || c = '\u202f' || c = '\u205f' || c = '\u3000'

/-- Drop leading whitespace, as in the left half of `strings.TrimSpace`. -/
def trimLeft (s : List Char) : List Char :=
  s.dropWhile goIsSpace

/-- Drop trailing whitespace, as in the right half of `strings.TrimSpace`. -/
def trimRight (s : List Char) : List Char :=
  (s.reverse.dropWhile goIsSpace).reverse

/-- Go's `strings.TrimSpace`: drop leading and trailing whitespace. -/
def trimSpace (s : List Char) : List Char :=
  trimRight (trimLeft s)

/-- SQLite's default `LIKE` folds the 26 ASCII upper-case letters to lower
case on both sides; all other characters are compared verbatim. -/
def asciiLower (c : Char) : Char :=
  if 'A' ≤ c && c ≤ 'Z' then Char.ofNat (c.toNat + 32) else c

/-- Helper for the `%` wildcard: `likeStar g s` holds when `g` accepts
some suffix of `s` (including `s` itself and the empty suffix). -/
def likeStar (g : List Char → Bool) : List Char → Bool
  | [] => g []
  | c :: cs => g (c :: cs) || likeStar g cs

/-- SQLite `LIKE` pattern matching (no `ESCAPE` clause, default
`case_sensitive_like` off): `%` matches any sequence of zero or more
characters, `_` matches exactly one character, and any other pattern
character matches a single input character up to ASCII case folding. -/
def likeMatch : List Char → List Char → Bool
  | [] => fun s => s.isEmpty
  | p :: ps => fun s =>
    if p = '%' then likeStar (likeMatch ps) s
    else
      match s with
      | [] => false
      | c :: cs =>
        (if p = '_' then true else asciiLower p == asciiLower c) &&
          likeMatch ps cs

/-- One row of the `simple_memories` table.  `title`, `tags`, `status`
are nullable TEXT columns (added by migration); `content` is
`TEXT NOT NULL`; `created_at` is server-assigned text. -/
structure Memory where
  id : Nat
  title : Option (List Char)
  tags : Option (List Char)
  status : Option (List Char)
  content : List Char
  createdAt : List Char
deriving DecidableEq

/-- The `LIKE` pattern built by the handlers: `"%" + query + "%"`. -/
def likePattern (q : List Char) : List Char :=
  '%' :: (q ++ ['%'])

/-- `field LIKE pattern` for a nullable column: `NULL LIKE p` is `NULL`,
which the `WHERE` clause treats as not matching. -/
def optLike (pat : List Char) : Option (List Char) → Bool
  | none => false
  | some s => likeMatch pat s

/-- The shared `WHERE` clause of `SimpleMemorySearch` and
`SimpleMemoryDelete`:
`title LIKE ? OR tags LIKE ? OR status LIKE ? OR content LIKE ?`
with every placeholder bound to `"%" + query + "%"`. -/
def matchesQuery (q : List Char) (r : Memory) : Bool :=
  optLike (likePattern q) r.title || optLike (likePattern q) r.tags ||
    optLike (likePattern q) r.status || likeMatch (likePattern q) r.content

/-- Row order used by `ORDER BY id ASC`. -/
def idLe (a b : Memory) : Prop :=
  a.id ≤ b.id

instance : DecidableRel idLe := fun a b => Nat.decLe a.id b.id

instance : IsTotal Memory idLe := ⟨fun a b => Nat.le_total a.id b.id⟩

instance : IsTrans Memory idLe := ⟨fun _ _ _ => Nat.le_trans⟩

/-- `ORDER BY id ASC` over the modelled table. -/
def sortById (l : List Memory) : List Memory :=
  l.insertionSort idLe

/-- One serialised output line of `SimpleMemoryList` / `SimpleMemorySearch`,
at the level of its field values.  All fields are plain strings: the Go
code prints `title.String` etc. of `sql.NullString`, which is `""` for a
NULL column value. -/
structure Rendered where
  id : Nat
  title : List Char
  tags : List Char
  status : List Char
  content : List Char
  createdAt : List Char
deriving DecidableEq

/-- How a scanned row is serialised: NULL title/tags/status surface as the
empty string, id/content/created_at verbatim. -/
def render (r : Memory) : Rendered :=
  { id := r.id
    title := r.title.getD []
    tags := r.tags.getD []
    status := r.status.getD []
    content := r.content
    createdAt := r.createdAt }

/-- The read-time filter in both scan loops: a row is emitted only when
`strings.TrimSpace(content) != ""`. -/
def contentVisible (r : Memory) : Bool :=
  !(trimSpace r.content).isEmpty

/-- Rows produced by `SimpleMemoryList`: `SELECT ... ORDER BY id ASC`,
then the scan loop drops rows whose content trims to empty and renders
the rest. -/
def listRows (store : List Memory) : List Rendered :=
  ((sortById store).filter contentVisible).map render

/-- Rows produced by `SimpleMemorySearch` after validation:
`SELECT ... WHERE <matchesQuery> ORDER BY id ASC`, then the same scan
loop as `listRows`. -/
def searchRows (q : List Char) (store : List Memory) : List Rendered :=
  ((sortById (store.filter (matchesQuery q))).filter contentVisible).map render

/-- `RowsAffected` of the `DELETE` statement: the number of rows the
shared predicate matches. -/
def deleteCount (q : List Char) (store : List Memory) : Nat :=
  (store.filter (matchesQuery q)).length

/-- The table after the `DELETE` statement: every matching row removed. -/
def deleteApply (q : List Char) (store : List Memory) : List Memory :=
  store.filter (fun r => !(matchesQuery q r))

/-- Next `id` assigned by the autoincrementing primary key: one more than
the largest id ever used; over a table modelled without deletion history
this is one more than the current maximum. -/
def nextId (store : List Memory) : Nat :=
  store.foldr (fun r m => max r.id m) 0 + 1

/-- An activity-log line (the printf text itself is abstracted to the
values it interpolates).  `SimpleMemoryAdd` logs the raw title/tags/status
and the trimmed content; `SimpleMemoryDelete` logs the affected count and
the trimmed query. -/
inductive LogEvent where
  | added (title tags status content : List Char)
  | deleted (n : Nat) (query : List Char)
deriving DecidableEq

/-- The arguments of a `simple_memory_add` call: `title`, `tags`, `status`
are read with `GetString(key, "")` (absent ⇒ `""`), `memory` with
`RequireString` (absent ⇒ invalid-params error). -/
structure AddRequest where
  title : Option (List Char)
  tags : Option (List Char)
  status : Option (List Char)
  memory : Option (List Char)
deriving DecidableEq

/-- Error text of a failed `RequireString` (the Go code wraps the library
error; the dynamic detail is abstracted). -/
def invalidParamsMsg : List Char :=
  "invalid params".data

instance {ε α : Type} [DecidableEq ε] [DecidableEq α] :
    DecidableEq (Except ε α) := fun x y =>
  match x, y with
  | Except.ok a, Except.ok b =>
    if h : a = b then isTrue (by rw [h])
    else isFalse (by intro hh; cases hh; exact h rfl)
  | Except.error a, Except.error b =>
    if h : a = b then isTrue (by rw [h])
    else isFalse (by intro hh; cases hh; exact h rfl)
  | Except.ok _, Except.error _ => isFalse (by intro hh; cases hh)
  | Except.error _, Except.ok _ => isFalse (by intro hh; cases hh)

/-- `SimpleMemoryAdd`.  Returns the caller-visible outcome (error message
or confirmation text), the table after the call, and the activity log
after the call.  `now` stands for the server-assigned `created_at`. -/
def simpleMemoryAdd (req : AddRequest) (disableLogging : Bool)
    (now : List Char) (store : List Memory) (lg : List LogEvent) :
    Except (List Char) (List Char) × List Memory × List LogEvent :=
  match req.memory with
  | none => (Except.error invalidParamsMsg, store, lg)
  | some memory =>
    let title := req.title.getD []
    let tags := req.tags.getD []
    let status := req.status.getD []
    let content := trimSpace memory
    if content.isEmpty then
      (Except.error "memory cannot be empty".data, store, lg)
    else
      let row : Memory :=
        { id := nextId store
          title := some (trimSpace title)
          tags := some (trimSpace tags)
          status := some (trimSpace status)
          content := content
          createdAt := now }
      let lg' := if disableLogging then lg
                 else lg ++ [LogEvent.added title tags status content]
      (Except.ok "Simple-memory added.".data, store ++ [row], lg')

/-- `SimpleMemoryList` (never fails in the model; store-level I/O errors
are out of scope).  The code serialises each row as a JSON line and joins
them; the model returns the rendered rows. -/
def simpleMemoryList (store : List Memory) :
    Except (List Char) (List Rendered) :=
  Except.ok (listRows store)

/-- `SimpleMemorySearch`: validation, then the filtered ordered scan.
The code serialises the rows as JSON lines (or the fixed no-match text
when none); the model returns the rendered rows. -/
def simpleMemorySearch (queryParam : Option (List Char))
    (store : List Memory) : Except (List Char) (List Rendered) :=
  match queryParam with
  | none => Except.error invalidParamsMsg
  | some qp =>
    let q := trimSpace qp
    if q.isEmpty then Except.error "query cannot be empty".data
    else Except.ok (searchRows q store)

/-- `SimpleMemoryDelete`: validation, the `DELETE` statement, the
best-effort log line, and the outcome carrying `RowsAffected` (the code
formats the count, or the fixed no-match text when zero, into the reply
string). -/
def simpleMemoryDelete (queryParam : Option (List Char))
    (disableLogging : Bool) (store : List Memory) (lg : List LogEvent) :
    Except (List Char) Nat × List Memory × List LogEvent :=
  match queryParam with
  | none => (Except.error invalidParamsMsg, store, lg)
  | some qp =>
    let q := trimSpace qp
    if q.isEmpty then (Except.error "query cannot be empty".data, store, lg)
    else
      let n := deleteCount q store
      let store' := deleteApply q store
      let lg' := if disableLogging then lg else lg ++ [LogEvent.deleted n q]
      (Except.ok n, store', lg')

/-- Modelled from the spec: `hasPref q s` holds when `q` is an initial
segment of `s` (plain case-sensitive character equality). -/
def hasPref : List Char → List Char → Bool
  | [], _ => true
  | _ :: _, [] => false
  | a :: as, b :: bs => (a == b) && hasPref as bs

/-- Modelled from the spec: case-sensitive substring containment of `q`
in `s` ("pure string containment — no tokenization, stemming, wildcard,
or ranking"). -/
def containsSub : List Char → List Char → Bool
  | s, q => hasPref q s || (match s with
    | [] => false
    | _ :: tl => containsSub tl q)

/-- Modelled from the spec (§4.2 Query Engine): a record matches `q` iff
`q` occurs as a case-sensitive substring of `title`, `tags`, `status`, or
`content` (absent optional fields surface as the empty string). -/
def specSubstrMatch (q : List Char) (r : Memory) : Bool :=
  containsSub (r.title.getD []) q || containsSub (r.tags.getD []) q ||
    containsSub (r.status.getD []) q || containsSub r.content q

/-- Sample rows used to instantiate the theorems below. -/
def sampleA : Memory :=
  ⟨1, none, none, none, "ABC".data, []⟩

def sampleB : Memory :=
  ⟨1, some "abc".data, none, none, " ".data, []⟩

def sampleC : Memory :=
  ⟨2, some "x".data, none, none, "hello".data, []⟩

def sampleD : Memory :=
  ⟨3, none, some "go,db".data, some "open".data, "note".data, []⟩

def sampleReq : AddRequest :=
  ⟨some " t ".data, some " g ".data, some " s ".data, some "  hello  ".data⟩

/-! ### Helper lemmas -/

lemma dropWhile_idem (p : Char → Bool) (l : List Char) :
    (l.dropWhile p).dropWhile p = l.dropWhile p := by
  induction l with
  | nil => rfl
  | cons a t ih =>
    by_cases h : p a
    · simp [List.dropWhile_cons, h, ih]
    · simp [List.dropWhile_cons, h]

lemma trimLeft_trimRight_of_trimLeft (l : List Char) (h : trimLeft l = l) :
    trimLeft (trimRight l) = trimRight l := by
  cases l with
  | nil => rfl
  | cons a t =>
    have ha : goIsSpace a = false := by
      by_contra hcon
      rw [Bool.not_eq_false] at hcon
      unfold trimLeft at h
      rw [List.dropWhile_cons, if_pos hcon] at h
      have hlen := (List.dropWhile_sublist (l := t) goIsSpace).length_le
      rw [h] at hlen
      simp at hlen
    unfold trimRight trimLeft
    rw [List.reverse_cons, List.dropWhile_append]
    by_cases hd : (t.reverse.dropWhile goIsSpace).isEmpty
    · rw [if_pos hd]
      simp [List.dropWhile_cons, ha]
    · rw [if_neg hd]
      rw [List.reverse_append]
      simp [List.dropWhile_cons, ha]

lemma trimSpace_idem (l : List Char) : trimSpace (trimSpace l) = trimSpace l := by
  unfold trimSpace
  have h1 : trimLeft (trimLeft l) = trimLeft l := dropWhile_idem _ _
  have h2 : trimLeft (trimRight (trimLeft l)) = trimRight (trimLeft l) :=
    trimLeft_trimRight_of_trimLeft _ h1
  rw [h2]
  unfold trimRight
  rw [List.reverse_reverse, dropWhile_idem]

lemma likeMatch_nil_iff (ps : List Char) :
    likeMatch ps [] = true ↔ ∀ c ∈ ps, c = '%' := by
  induction ps with
  | nil => simp [likeMatch]
  | cons p ps ih =>
    by_cases h : p = '%'
    · subst h
      simp [likeMatch, likeStar, ih, List.forall_mem_cons]
    · have hfalse : likeMatch (p :: ps) [] = false := by simp [likeMatch, h]
      rw [hfalse]
      simp only [Bool.false_eq_true, false_iff]
      intro hall
      exact h (hall p (List.mem_cons_self p ps))

lemma likeMatch_all_percent (p0 : Char) (ps : List Char)
    (h : ∀ c ∈ p0 :: ps, c = '%') (s : List Char) :
    likeMatch (p0 :: ps) s = true := by
  induction s with
  | nil => exact (likeMatch_nil_iff _).mpr h
  | cons c cs ih =>
    have hp : p0 = '%' := h p0 (List.mem_cons_self p0 ps)
    subst hp
    simp [likeMatch, likeStar] at ih ⊢
    exact Or.inr ih

lemma optLike_getD (pat : List Char) (hnil : likeMatch pat [] = false)
    (t : Option (List Char)) :
    optLike pat t = likeMatch pat (t.getD []) := by
  cases t with
  | none => simp [optLike, Option.getD, hnil]
  | some s => rfl

lemma matchesQuery_eq_getD (q : List Char)
    (hnil : likeMatch (likePattern q) [] = false) (r : Memory) :
    matchesQuery q r =
      (likeMatch (likePattern q) (r.title.getD []) ||
        likeMatch (likePattern q) (r.tags.getD []) ||
        likeMatch (likePattern q) (r.status.getD []) ||
        likeMatch (likePattern q) r.content) := by
  unfold matchesQuery
  rw [optLike_getD _ hnil, optLike_getD _ hnil, optLike_getD _ hnil]

lemma matchesQuery_render_congr (q : List Char) (r r' : Memory)
    (h : render r' = render r) : matchesQuery q r' = matchesQuery q r := by
  by_cases hall : ∀ c ∈ likePattern q, c = '%'
  · have h1 : likeMatch (likePattern q) r'.content = true :=
      likeMatch_all_percent '%' (q ++ ['%']) hall r'.content
    have h2 : likeMatch (likePattern q) r.content = true :=
      likeMatch_all_percent '%' (q ++ ['%']) hall r.content
    simp [matchesQuery, h1, h2]
  · have hnil : likeMatch (likePattern q) [] = false := by
      rw [Bool.eq_false_iff]
      intro hcon
      exact hall ((likeMatch_nil_iff _).mp hcon)
    have e1 : r'.title.getD [] = r.title.getD [] := congrArg Rendered.title h
    have e2 : r'.tags.getD [] = r.tags.getD [] := congrArg Rendered.tags h
    have e3 : r'.status.getD [] = r.status.getD [] := congrArg Rendered.status h
    have e4 : r'.content = r.content := congrArg Rendered.content h
    rw [matchesQuery_eq_getD q hnil r', matchesQuery_eq_getD q hnil r,
      e1, e2, e3, e4]

lemma rows_pairwise_lt (l : List Memory) (h : (l.map Memory.id).Nodup) :
    ((((sortById l).filter contentVisible).map render).map Rendered.id).Pairwise
      (· < ·) := by
  have hsorted : List.Pairwise idLe (sortById l) :=
    List.sorted_insertionSort idLe l
  have hperm : List.Perm (sortById l) l := List.perm_insertionSort idLe l
  have hnodup : ((sortById l).map Memory.id).Nodup :=
    (hperm.map Memory.id).nodup_iff.mpr h
  have hnodup' : List.Pairwise (· ≠ ·) ((sortById l).map Memory.id) := hnodup
  have hne : (sortById l).Pairwise (fun a b => a.id ≠ b.id) :=
    List.pairwise_map.mp hnodup'
  have hlt : (sortById l).Pairwise (fun a b => a.id < b.id) :=
    List.Pairwise.imp (fun hab => Nat.lt_of_le_of_ne hab.1 hab.2)
      (hsorted.and hne)
  have hfilter := hlt.filter contentVisible
  rw [List.map_map, List.pairwise_map]
  exact hfilter

/-! ### Claim theorems -/

/-- Claim C1, counterexample: Search is not case-sensitive substring
matching.  The record with content `"ABC"` is returned by `Search("abc")`
(SQLite `LIKE` folds ASCII case), although `"abc"` is not a case-sensitive
substring of any of its four fields, so the claimed iff fails at this
input. -/
theorem search_not_case_sensitive_cex :
    simpleMemorySearch (some "abc".data) [sampleA] = Except.ok [render sampleA] ∧
    specSubstrMatch "abc".data sampleA = false := by
  constructor
  · decide
  · decide

/-- Claim C1 as amended: for a query `q` that is non-empty after trimming
and a stored record whose content does not trim to empty, `Search(q)`
includes the record if and only if the SQLite `LIKE` pattern `%q%` matches
at least one of title, tags, status, or content — i.e. containment is
ASCII-case-insensitive and `%` / `_` occurring in `q` act as wildcards,
and a NULL field never matches. -/
theorem search_membership_like_semantics (q : List Char) (hq : q ≠ [])
    (store : List Memory) (r : Memory) (hr : r ∈ store)
    (hc : contentVisible r = true) :
    render r ∈ searchRows q store ↔ matchesQuery q r = true := by
  constructor
  · intro hmem
    unfold searchRows at hmem
    rcases List.mem_map.mp hmem with ⟨r', hr', hrend⟩
    have hr'2 : r' ∈ sortById (store.filter (matchesQuery q)) :=
      (List.mem_filter.mp hr').1
    have hr'3 : r' ∈ store.filter (matchesQuery q) :=
      (List.mem_insertionSort idLe).mp hr'2
    have hm' : matchesQuery q r' = true := (List.mem_filter.mp hr'3).2
    rw [← matchesQuery_render_congr q r r' hrend]
    exact hm'
  · intro hm
    unfold searchRows
    apply List.mem_map_of_mem
    apply List.mem_filter.mpr
    refine ⟨?_, hc⟩
    exact (List.mem_insertionSort idLe).mpr (List.mem_filter.mpr ⟨hr, hm⟩)

/-- Witness for the amended C1 at a concrete input. -/
theorem search_membership_like_semantics_wit :
    ("abc".data ≠ ([] : List Char) ∧ sampleA ∈ [sampleA] ∧
      contentVisible sampleA = true) ∧
    (render sampleA ∈ searchRows "abc".data [sampleA] ↔
      matchesQuery "abc".data sampleA = true) :=
  ⟨⟨by decide, by decide, by decide⟩,
    search_membership_like_semantics "abc".data (by decide) [sampleA] sampleA
      (by decide) (by decide)⟩

/-- Claim C2, counterexample: on a store holding one row with title
`"abc"` and whitespace-only content `" "`, `Delete("abc")` reports one
removed row while `Search("abc")` on the same state returns no rows —
Search additionally hides rows whose content trims to empty, Delete does
not. -/
theorem delete_search_symmetry_cex :
    (simpleMemoryDelete (some "abc".data) false [sampleB] []).1 = Except.ok 1 ∧
    simpleMemorySearch (some "abc".data) [sampleB] = Except.ok [] := by
  constructor
  · decide
  · decide

/-- Claim C2 as amended: for a query that is non-empty after trimming,
on a store in which every record's content is non-empty after trimming
(which holds for every record persisted through Add), the count removed
by Delete equals the length of Search's result on the same state. -/
theorem delete_count_eq_search_length (qp : List Char) (d : Bool)
    (store : List Memory) (lg : List LogEvent)
    (hq : (trimSpace qp).isEmpty = false)
    (hstore : ∀ r ∈ store, contentVisible r = true) :
    ∃ rows, simpleMemorySearch (some qp) store = Except.ok rows ∧
      (simpleMemoryDelete (some qp) d store lg).1 = Except.ok rows.length := by
  refine ⟨searchRows (trimSpace qp) store, ?_, ?_⟩
  · simp [simpleMemorySearch, hq]
  · simp [simpleMemoryDelete, hq]
    unfold searchRows deleteCount
    rw [List.length_map]
    have hall : ∀ r ∈ sortById (store.filter (matchesQuery (trimSpace qp))),
        contentVisible r = true := by
      intro r hr
      have hr2 : r ∈ store.filter (matchesQuery (trimSpace qp)) :=
        (List.mem_insertionSort idLe).mp hr
      exact hstore r ((List.mem_filter.mp hr2).1)
    rw [List.filter_eq_self.mpr hall]
    exact ((List.perm_insertionSort idLe
      (store.filter (matchesQuery (trimSpace qp)))).length_eq).symm

/-- Witness for the amended C2 at a concrete input. -/
theorem delete_count_eq_search_length_wit :
    ((trimSpace "abc".data).isEmpty = false ∧
      (∀ r ∈ [sampleA], contentVisible r = true)) ∧
    (∃ rows, simpleMemorySearch (some "abc".data) [sampleA] = Except.ok rows ∧
      (simpleMemoryDelete (some "abc".data) false [sampleA] []).1 =
        Except.ok rows.length) :=
  ⟨⟨by decide, by decide⟩,
    delete_count_eq_search_length "abc".data false [sampleA] []
      (by decide) (by decide)⟩

/-- Claim C3: an Add whose content is empty or whitespace-only after
trimming yields the invalid-input error "memory cannot be empty" and
leaves the store exactly as it was. -/
theorem add_empty_content_rejected (req : AddRequest) (d : Bool)
    (now : List Char) (store : List Memory) (lg : List LogEvent)
    (m : List Char) (hm : req.memory = some m) (h : trimSpace m = []) :
    (simpleMemoryAdd req d now store lg).1 =
      Except.error "memory cannot be empty".data ∧
    (simpleMemoryAdd req d now store lg).2.1 = store := by
  constructor <;> simp [simpleMemoryAdd, hm, h]

/-- Witness for C3 at a concrete input (content three spaces). -/
theorem add_empty_content_rejected_wit :
    ((⟨none, none, none, some "   ".data⟩ : AddRequest).memory =
        some "   ".data ∧ trimSpace "   ".data = []) ∧
    ((simpleMemoryAdd ⟨none, none, none, some "   ".data⟩ false [] [sampleA] []).1 =
        Except.error "memory cannot be empty".data ∧
      (simpleMemoryAdd ⟨none, none, none, some "   ".data⟩ false [] [sampleA] []).2.1 =
        [sampleA]) :=
  ⟨⟨rfl, by decide⟩,
    add_empty_content_rejected ⟨none, none, none, some "   ".data⟩ false []
      [sampleA] [] "   ".data rfl (by decide)⟩

/-- Claim C4: a query that is empty or whitespace-only after trimming
makes both Search and Delete fail with "query cannot be empty", and
Delete leaves the store (and even the activity log) untouched. -/
theorem empty_query_rejected (qp : List Char) (d : Bool)
    (store : List Memory) (lg : List LogEvent) (h : trimSpace qp = []) :
    simpleMemorySearch (some qp) store =
      Except.error "query cannot be empty".data ∧
    simpleMemoryDelete (some qp) d store lg =
      (Except.error "query cannot be empty".data, store, lg) := by
  constructor <;> simp [simpleMemorySearch, simpleMemoryDelete, h]

/-- Witness for C4 at a concrete input (query two spaces). -/
theorem empty_query_rejected_wit :
    (trimSpace "  ".data = []) ∧
    (simpleMemorySearch (some "  ".data) [sampleA] =
        Except.error "query cannot be empty".data ∧
      simpleMemoryDelete (some "  ".data) false [sampleA] [] =
        (Except.error "query cannot be empty".data, [sampleA], [])) :=
  ⟨by decide, empty_query_rejected "  ".data false [sampleA] [] (by decide)⟩

/-- Claim C5: with pairwise-distinct ids (the primary-key invariant of
the table), both List and Search return rows in strictly ascending id
order, whatever the order of the underlying rows. -/
theorem results_sorted_by_id (store : List Memory) (q : List Char)
    (h : (store.map Memory.id).Nodup) :
    ((listRows store).map Rendered.id).Pairwise (· < ·) ∧
    ((searchRows q store).map Rendered.id).Pairwise (· < ·) := by
  constructor
  · exact rows_pairwise_lt store h
  · apply rows_pairwise_lt
    exact List.Nodup.sublist
      (List.Sublist.map Memory.id (List.filter_sublist store)) h

/-- Witness for C5 on a store listed out of id order. -/
theorem results_sorted_by_id_wit :
    (([sampleC, sampleA].map Memory.id).Nodup) ∧
    (((listRows [sampleC, sampleA]).map Rendered.id).Pairwise (· < ·) ∧
      ((searchRows "a".data [sampleC, sampleA]).map Rendered.id).Pairwise
        (· < ·)) :=
  ⟨by decide, results_sorted_by_id [sampleC, sampleA] "a".data (by decide)⟩

/-- Claim C6: a Delete whose (trimmed, non-empty) query matches no record
succeeds with removed count zero and leaves every record in place. -/
theorem delete_no_match_noop (qp : List Char) (d : Bool)
    (store : List Memory) (lg : List LogEvent)
    (hq : (trimSpace qp).isEmpty = false)
    (hnone : ∀ r ∈ store, matchesQuery (trimSpace qp) r = false) :
    (simpleMemoryDelete (some qp) d store lg).1 = Except.ok 0 ∧
    (simpleMemoryDelete (some qp) d store lg).2.1 = store := by
  have hnil : store.filter (matchesQuery (trimSpace qp)) = [] :=
    List.filter_eq_nil_iff.mpr (by intro a ha; simp [hnone a ha])
  constructor
  · simp [simpleMemoryDelete, hq]
    unfold deleteCount
    rw [hnil]
    rfl
  · simp [simpleMemoryDelete, hq]
    unfold deleteApply
    apply List.filter_eq_self.mpr
    intro a ha
    simp [hnone a ha]

/-- Witness for C6: deleting with query "zzz" on a one-row store. -/
theorem delete_no_match_noop_wit :
    ((trimSpace "zzz".data).isEmpty = false ∧
      (∀ r ∈ [sampleA], matchesQuery (trimSpace "zzz".data) r = false)) ∧
    ((simpleMemoryDelete (some "zzz".data) false [sampleA] []).1 =
        Except.ok 0 ∧
      (simpleMemoryDelete (some "zzz".data) false [sampleA] []).2.1 =
        [sampleA]) :=
  ⟨⟨by decide, by decide⟩,
    delete_no_match_noop "zzz".data false [sampleA] [] (by decide) (by decide)⟩

/-- Claim C7: every row surfaced by List or Search comes from a stored
record via `render`, and `render` replaces an absent (NULL) title, tags,
or status by the empty string — no NULL ever reaches the serialized
output. -/
theorem rendered_fields_never_null (store : List Memory) (q : List Char)
    (rr : Rendered) (h : rr ∈ listRows store ∨ rr ∈ searchRows q store) :
    ∃ r, r ∈ store ∧ rr = render r ∧
      (r.title = none → rr.title = []) ∧
      (r.tags = none → rr.tags = []) ∧
      (r.status = none → rr.status = []) := by
  have get : ∀ l : List Memory, rr ∈ (l.filter contentVisible).map render →
      ∃ r, r ∈ l ∧ rr = render r := by
    intro l hm
    rcases List.mem_map.mp hm with ⟨r, hrmem, hrend⟩
    exact ⟨r, (List.mem_filter.mp hrmem).1, hrend.symm⟩
  have main : ∃ r, r ∈ store ∧ rr = render r := by
    obtain h | h := h
    · unfold listRows at h
      rcases get _ h with ⟨r, hrl, hre⟩
      exact ⟨r, (List.mem_insertionSort idLe).mp hrl, hre⟩
    · unfold searchRows at h
      rcases get _ h with ⟨r, hrl, hre⟩
      have hr2 : r ∈ store.filter (matchesQuery q) :=
        (List.mem_insertionSort idLe).mp hrl
      exact ⟨r, (List.mem_filter.mp hr2).1, hre⟩
  rcases main with ⟨r, hrs, hre⟩
  refine ⟨r, hrs, hre, ?_, ?_, ?_⟩ <;> intro hnone <;> rw [hre] <;>
    simp [render, hnone]

/-- Witness for C7 at a record whose title is NULL. -/
theorem rendered_fields_never_null_wit :
    (render sampleD ∈ listRows [sampleD] ∨
      render sampleD ∈ searchRows "go".data [sampleD]) ∧
    (∃ r, r ∈ [sampleD] ∧ render sampleD = render r ∧
      (r.title = none → (render sampleD).title = []) ∧
      (r.tags = none → (render sampleD).tags = []) ∧
      (r.status = none → (render sampleD).status = [])) :=
  ⟨Or.inl (by decide),
    rendered_fields_never_null [sampleD] "go".data (render sampleD)
      (Or.inl (by decide))⟩

/-- Claim C8: any row returned by List or Search has content that is
still non-empty after trimming (rows whose content reads back as
whitespace-only are silently dropped by both scan loops). -/
theorem returned_content_nonempty (store : List Memory) (q : List Char)
    (rr : Rendered) (h : rr ∈ listRows store ∨ rr ∈ searchRows q store) :
    (trimSpace rr.content).isEmpty = false := by
  have key : ∀ l : List Memory, rr ∈ (l.filter contentVisible).map render →
      (trimSpace rr.content).isEmpty = false := by
    intro l hm
    rcases List.mem_map.mp hm with ⟨r, hrmem, hrend⟩
    have hv : contentVisible r = true := (List.mem_filter.mp hrmem).2
    have hcc : rr.content = r.content := by rw [← hrend]; rfl
    rw [hcc]
    unfold contentVisible at hv
    simpa using hv
  obtain h | h := h
  · unfold listRows at h
    exact key _ h
  · unfold searchRows at h
    exact key _ h

/-- Witness for C8 at a concrete returned row. -/
theorem returned_content_nonempty_wit :
    (render sampleA ∈ listRows [sampleA] ∨
      render sampleA ∈ searchRows "a".data [sampleA]) ∧
    (trimSpace (render sampleA).content).isEmpty = false :=
  ⟨Or.inl (by decide),
    returned_content_nonempty [sampleA] "a".data (render sampleA)
      (Or.inl (by decide))⟩

/-- Claim C9: the caller-visible outcome and the resulting store of Add
and of Delete are the same whether activity logging is enabled or
disabled (and whatever the prior log contents) — the flag only gates the
log append. -/
theorem logging_flag_no_influence (req : AddRequest)
    (qp : Option (List Char)) (now : List Char) (store : List Memory)
    (lg₁ lg₂ : List LogEvent) (d₁ d₂ : Bool) :
    ((simpleMemoryAdd req d₁ now store lg₁).1 =
        (simpleMemoryAdd req d₂ now store lg₂).1 ∧
      (simpleMemoryAdd req d₁ now store lg₁).2.1 =
        (simpleMemoryAdd req d₂ now store lg₂).2.1) ∧
    ((simpleMemoryDelete qp d₁ store lg₁).1 =
        (simpleMemoryDelete qp d₂ store lg₂).1 ∧
      (simpleMemoryDelete qp d₁ store lg₁).2.1 =
        (simpleMemoryDelete qp d₂ store lg₂).2.1) := by
  constructor
  · cases hm : req.memory with
    | none => simp [simpleMemoryAdd, hm]
    | some m =>
      by_cases hc : (trimSpace m).isEmpty <;> simp [simpleMemoryAdd, hm, hc]
  · cases qp with
    | none => simp [simpleMemoryDelete]
    | some q =>
      by_cases hc : (trimSpace q).isEmpty <;> simp [simpleMemoryDelete, hc]

/-- Claim C10: a successful Add appends exactly one row whose title,
tags, status, and content are the trimmed inputs; consequently none of
the four stored string fields retains leading or trailing whitespace
(each is a fixed point of `trimSpace`). -/
theorem add_trims_fields (req : AddRequest) (d : Bool) (now : List Char)
    (store : List Memory) (lg : List LogEvent) (m : List Char)
    (hm : req.memory = some m) (h : (trimSpace m).isEmpty = false) :
    ∃ row : Memory,
      (simpleMemoryAdd req d now store lg).2.1 = store ++ [row] ∧
      row.title = some (trimSpace (req.title.getD [])) ∧
      row.tags = some (trimSpace (req.tags.getD [])) ∧
      row.status = some (trimSpace (req.status.getD [])) ∧
      row.content = trimSpace m ∧
      trimSpace (row.title.getD []) = row.title.getD [] ∧
      trimSpace (row.tags.getD []) = row.tags.getD [] ∧
      trimSpace (row.status.getD []) = row.status.getD [] ∧
      trimSpace row.content = row.content := by
  refine ⟨⟨nextId store, some (trimSpace (req.title.getD [])),
    some (trimSpace (req.tags.getD [])), some (trimSpace (req.status.getD [])),
    trimSpace m, now⟩, ?_, rfl, rfl, rfl, rfl, ?_, ?_, ?_, ?_⟩
  · simp [simpleMemoryAdd, hm, h]
  · simpa using trimSpace_idem (req.title.getD [])
  · simpa using trimSpace_idem (req.tags.getD [])
  · simpa using trimSpace_idem (req.status.getD [])
  · simpa using trimSpace_idem m

/-- Witness for C10 at a concrete request with padded fields. -/
theorem add_trims_fields_wit :
    (sampleReq.memory = some "  hello  ".data ∧
      (trimSpace "  hello  ".data).isEmpty = false) ∧
    (∃ row : Memory,
      (simpleMemoryAdd sampleReq false [] [] []).2.1 = [] ++ [row] ∧
      row.title = some (trimSpace (sampleReq.title.getD [])) ∧
      row.tags = some (trimSpace (sampleReq.tags.getD [])) ∧
      row.status = some (trimSpace (sampleReq.status.getD [])) ∧
      row.content = trimSpace "  hello  ".data ∧
      trimSpace (row.title.getD []) = row.title.getD [] ∧
      trimSpace (row.tags.getD []) = row.tags.getD [] ∧
      trimSpace (row.status.getD []) = row.status.getD [] ∧
      trimSpace row.content = row.content) :=
  ⟨⟨rfl, by decide⟩,
    add_trims_fields sampleReq false [] [] [] "  hello  ".data rfl (by decide)⟩

end SimpleMemory
